import Mathlib

/-!
Verification development for the cyclingdb repository.

Shallow embedding of the rider-search engine
(`src/cyclingdb/search/engine.py`: class `RiderSearchEngine` with
`search`, `_filter_by_specialization`, `get_unique_values`, `get_stats`)
and of the load-time `Eval` derivation in
`src/cyclingdb/data/loader.py` (`load_riders_data`, lines 47-73).

Modelling conventions:
* a pandas cell value is `Val`: a numeric value (int or float, as an exact
  rational), the float NaN, a string, or Python `None`;
* a dataframe is an ordered list of (integer index label, row) pairs sharing
  a column list; a row is an association list from column name to value;
* Python `float(x)` inside `try/except (ValueError, TypeError)` is
  `coerceStat`; note that `float(nan)` succeeds and returns NaN, it does not
  raise, so NaN is *not* replaced by 0;
* Python `max` over a nonempty iterable is a left fold keeping the current
  value unless the next compares strictly greater (`pyMaxList`); comparisons
  against NaN are always false, as for IEEE floats;
* string cells are Lean `String`s; lowercasing, stripping, substring search
  and lexicographic comparison are implemented on the character list so that
  every definition evaluates inside the kernel.  `parseFloat` models Python
  `float` applied to a string on plain decimal literals and `nan` (exponent
  and infinity forms are outside the scope of every claim considered here);
* `str(x)` for building the option lists is `pyStr`; on string cells (the
  only cells any claim exercises) it is the identity;
* Python `sorted` on strings is insertion sort by code-point-lexicographic
  order (`sortStrs`), which is sorted, stable and a permutation - exactly the
  properties the claims use.
-/

namespace CyclingDB

/-! ### Character and string utilities (kernel-evaluable) -/

/-- Prefix test on character lists: `leadsWith p l` is true iff `p` is an
initial segment of `l`. -/
def leadsWith : List Char → List Char → Bool
  | [], _ => true
  | _ :: _, [] => false
  | a :: as, b :: bs => a == b && leadsWith as bs

/-- Substring containment, modelling Python's `in` on strings (and pandas
`str.contains` on patterns without regex metacharacters). -/
def strContains (hay pat : String) : Bool :=
  (List.range (hay.data.length + 1)).any fun i => leadsWith pat.data (hay.data.drop i)

/-- Python `str.lower()`. -/
def pyLower (s : String) : String := String.mk (s.data.map Char.toLower)

/-- Characters removed by Python `str.strip()` with no argument. -/
def isWS (c : Char) : Bool := c.isWhitespace

/-- Trim whitespace from both ends of a character list. -/
def trimChars (l : List Char) : List Char :=
  ((l.dropWhile isWS).reverse.dropWhile isWS).reverse

/-- Python `str.strip()`. -/
def pyStrip (s : String) : String := String.mk (trimChars s.data)

/-- Code-point lexicographic comparison of character lists, the order Python
uses to sort strings. -/
def lexLe : List Char → List Char → Bool
  | [], _ => true
  | _ :: _, [] => false
  | a :: as, b :: bs =>
    if a.toNat < b.toNat then true
    else if b.toNat < a.toNat then false
    else lexLe as bs

/-- String order used by `sorted` on a list of strings. -/
def strLe (a b : String) : Bool := lexLe a.data b.data

/-- Insert a string into a lexicographically sorted list. -/
def insertStr (s : String) : List String → List String
  | [] => [s]
  | t :: ts => if strLe s t then s :: t :: ts else t :: insertStr s ts

/-- Python `sorted` on a list of strings (insertion sort, ascending). -/
def sortStrs (l : List String) : List String := l.foldr insertStr []

/-! ### Values -/

/-- A pandas cell value: exact numeric, float NaN, string, or Python None. -/
inductive Val where
  | num (q : ℚ)
  | nan
  | str (s : String)
  | pynone
deriving DecidableEq, Repr

/-- Result of a successful Python `float(...)` call. -/
inductive PyFloat where
  | num (q : ℚ)
  | nan
deriving DecidableEq, Repr

/-- Digit-list numeral value. -/
def digitsToNat (l : List Char) : Nat :=
  l.foldl (fun acc c => acc * 10 + (c.toNat - 48)) 0

/-- Python `float` applied to a string: `some` of the value on success,
`none` when the call raises `ValueError`.  Models plain decimal literals
(optional sign, digits, optional fractional part) and `nan`. -/
def parseFloat (s : String) : Option PyFloat :=
  let t := trimChars s.data
  let (neg, t1) :=
    match t with
    | '-' :: r => (true, r)
    | '+' :: r => (false, r)
    | _ => (false, t)
  if t1.map Char.toLower = ['n', 'a', 'n'] then some PyFloat.nan
  else
    let ip := t1.takeWhile Char.isDigit
    let rest := t1.dropWhile Char.isDigit
    let mk : ℚ → Option PyFloat := fun q =>
      some (PyFloat.num (if neg then -q else q))
    match rest with
    | [] => if ip.isEmpty then none else mk (digitsToNat ip : ℚ)
    | '.' :: frac =>
      if frac.all Char.isDigit && (!ip.isEmpty || !frac.isEmpty) then
        mk ((digitsToNat ip : ℚ) + (digitsToNat frac : ℚ) / ((10 : ℚ) ^ frac.length))
      else none
    | _ => none

/-- `float(x)` guarded by `except (ValueError, TypeError): 0`, as in
`_filter_by_specialization`.  `float(None)` raises `TypeError` (so 0),
`float('x')` raises `ValueError` (so 0), but `float(nan)` *succeeds* and
yields NaN. -/
def coerceStat (v : Val) : PyFloat :=
  match v with
  | Val.num q => PyFloat.num q
  | Val.nan => PyFloat.nan
  | Val.pynone => PyFloat.num 0
  | Val.str s =>
    match parseFloat s with
    | some f => f
    | none => PyFloat.num 0

/-- Python `>` on float-coercion results: any comparison with NaN is false. -/
def pyGt : PyFloat → PyFloat → Bool
  | PyFloat.num a, PyFloat.num b => decide (b < a)
  | _, _ => false

/-- Python `==` on float-coercion results: NaN equals nothing. -/
def pyEqF : PyFloat → PyFloat → Bool
  | PyFloat.num a, PyFloat.num b => decide (a = b)
  | _, _ => false

/-- Python `max` over the listed values (left fold, keeps the current value
unless the candidate compares strictly greater). -/
def pyMaxList : List PyFloat → PyFloat
  | [] => PyFloat.num 0
  | h :: t => t.foldl (fun acc v => if pyGt v acc then v else acc) h

/-! ### Dataframes -/

/-- A row: association list from column name to cell value. -/
abbrev Row : Type := List (String × Val)

/-- Cell access `row[col]`. -/
def rowVal (r : Row) (c : String) : Val :=
  match List.lookup c r with
  | some v => v
  | none => Val.pynone

/-- A dataframe: a column list and an ordered list of (index label, row)
pairs.  Filtering preserves index labels, as in pandas. -/
structure DataFrame where
  cols : List String
  rows : List (Nat × Row)
deriving DecidableEq, Repr

/-- `df.copy()`: a value-identical dataframe (a fresh object in Python). -/
def copyDF (df : DataFrame) : DataFrame := { cols := df.cols, rows := df.rows }

/-! ### The search engine, `engine.py` lines 18-95 -/

/-- Search parameters of `RiderSearchEngine.search`; every field optional. -/
structure SearchParams where
  name_query : Option String
  nationality : Option String
  team : Option String
  min_age : Option Int
  max_age : Option Int
  min_overall : Option Int
  max_overall : Option Int
  specialization : Option String
deriving DecidableEq, Repr

/-- One text-filter block of `search`: applied only when the query is truthy
and non-whitespace and the column exists; keeps rows whose cell contains the
stripped query case-insensitively (`na=False`: non-string cells fail). -/
def strMatch (v : Val) (q : String) : Bool :=
  match v with
  | Val.str s => strContains (pyLower s) (pyLower (pyStrip q))
  | _ => false

/-- Text filter step (used for `Name`, `Nationality`, `Team`). -/
def textFilter (colName : String) (param : Option String) (df : DataFrame) : DataFrame :=
  match param with
  | none => df
  | some q =>
    if pyStrip q = "" then df
    else if colName ∈ df.cols then
      { cols := df.cols, rows := df.rows.filter fun ir => strMatch (rowVal ir.2 colName) q }
    else df

/-- Pandas `series >= n` on a cell: false for NaN, None and strings. -/
def valGE (v : Val) (n : Int) : Bool :=
  match v with
  | Val.num q => decide ((n : ℚ) ≤ q)
  | _ => false

/-- Pandas `series <= n` on a cell: false for NaN, None and strings. -/
def valLE (v : Val) (n : Int) : Bool :=
  match v with
  | Val.num q => decide (q ≤ (n : ℚ))
  | _ => false

/-- Age-range block of `search` (lines 77-81): applied only when the `Age`
column exists; each bound filters only when provided. -/
def ageFilter (minA maxA : Option Int) (df : DataFrame) : DataFrame :=
  if "Age" ∈ df.cols then
    let d1 :=
      match minA with
      | none => df
      | some a => { cols := df.cols, rows := df.rows.filter fun ir => valGE (rowVal ir.2 "Age") a }
    match maxA with
    | none => d1
    | some b => { cols := d1.cols, rows := d1.rows.filter fun ir => valLE (rowVal ir.2 "Age") b }
  else df

/-- Overall-rating block of `search` (lines 84-88), on column `Overall`. -/
def overallFilter (minO maxO : Option Int) (df : DataFrame) : DataFrame :=
  if "Overall" ∈ df.cols then
    let d1 :=
      match minO with
      | none => df
      | some a => { cols := df.cols, rows := df.rows.filter fun ir => valGE (rowVal ir.2 "Overall") a }
    match maxO with
    | none => d1
    | some b => { cols := d1.cols, rows := d1.rows.filter fun ir => valLE (rowVal ir.2 "Overall") b }
  else df

/-! ### Specialization filter, `engine.py` lines 97-156 -/

/-- Keyword set of Step A: a column is a stat column when its lowercase name
contains one of these. -/
def specKeywords : List String :=
  ["mountain", "sprint", "time trial", "overall", "classics"]

/-- Stat-column universe of the dataframe (lines 107-112). -/
def statColumnsOf (df : DataFrame) : List String :=
  df.cols.filter fun c => specKeywords.any fun k => strContains (pyLower c) k

/-- The synonym table `spec_mapping` (lines 118-124). -/
def specMapping : List (String × List String) :=
  [("mountain", ["mountain", "climber", "hill"]),
   ("sprint", ["sprint", "flat"]),
   ("time trial", ["time trial", "tt", "chrono"]),
   ("classics", ["classics", "cobbles"]),
   ("overall", ["overall", "general classification", "gc"])]

/-- First synonym list containing the requested term (the `for ... break`
loop over `spec_mapping`). -/
def lookupTerms (spec : String) : Option (List String) :=
  specMapping.findSome? fun kt => if spec ∈ kt.2 then some kt.2 else none

/-- Target columns for the requested specialization (lines 127-133). -/
def targetColumnsOf (statCols : List String) (spec : String) : List String :=
  match lookupTerms spec with
  | none => []
  | some terms => statCols.filter fun c => terms.any fun t => strContains (pyLower c) t

/-- Association list `stat_values` of one row. -/
def statValuesOf (statCols : List String) (r : Row) : List (String × PyFloat) :=
  statCols.map fun c => (c, coerceStat (rowVal r c))

/-- `stat_values.get(col, 0)`. -/
def dictGet (l : List (String × PyFloat)) (c : String) : PyFloat :=
  match List.lookup c l with
  | some v => v
  | none => PyFloat.num 0

/-- Per-row test of the loop body (lines 140-154): the row's index is
collected iff some target column's value equals the row maximum. -/
def keepRow (statCols targetCols : List String) (r : Row) : Bool :=
  let sv := statValuesOf statCols r
  if sv.isEmpty then false
  else
    let maxS := pyMaxList (sv.map Prod.snd)
    targetCols.any fun c => pyEqF (dictGet sv c) maxS

/-- `_filter_by_specialization` (lines 97-156).  The final selection is
`df.loc[filtered_indices]`: every index label in the collected list selects
all rows carrying that label, in the order the labels were collected;
`df.iloc[0:0]` when nothing matched. -/
def filterBySpecialization (df : DataFrame) (spec : String) : DataFrame :=
  let statCols := statColumnsOf df
  if statCols.isEmpty then df
  else
    let targetCols := targetColumnsOf statCols spec
    if targetCols.isEmpty then df
    else
      let keptIdx := (df.rows.filter fun ir => keepRow statCols targetCols ir.2).map Prod.fst
      if keptIdx.isEmpty then { cols := df.cols, rows := [] }
      else { cols := df.cols, rows := keptIdx.flatMap fun i => df.rows.filter fun ir => ir.1 == i }

/-- Specialization block of `search` (lines 91-93): applied when the
parameter is truthy and non-whitespace, after strip + lowercase. -/
def specFilter (param : Option String) (df : DataFrame) : DataFrame :=
  match param with
  | none => df
  | some s => if pyStrip s = "" then df else filterBySpecialization df (pyLower (pyStrip s))

/-- `RiderSearchEngine.search`: the sequential narrowing chain applied to a
copy of the stored dataframe. -/
def searchImpl (df : DataFrame) (p : SearchParams) : DataFrame :=
  specFilter p.specialization
    (overallFilter p.min_overall p.max_overall
      (ageFilter p.min_age p.max_age
        (textFilter "Team" p.team
          (textFilter "Nationality" p.nationality
            (textFilter "Name" p.name_query (copyDF df))))))

/-! ### `get_unique_values` and `get_stats`, `engine.py` lines 158-191 -/

/-- Missing-value test of `dropna` / `nunique`: NaN and None are missing. -/
def isNA (v : Val) : Bool :=
  match v with
  | Val.nan => true
  | Val.pynone => true
  | _ => false

/-- Column extraction `df[column]` as a value list. -/
def colValues (df : DataFrame) (c : String) : List Val :=
  df.rows.map fun ir => rowVal ir.2 c

/-- Helper of `uniqueFirst`: keep each value not seen yet, in order. -/
def uniqueAux (seen : List Val) : List Val → List Val
  | [] => []
  | a :: t => if a ∈ seen then uniqueAux seen t else a :: uniqueAux (a :: seen) t

/-- Pandas `Series.unique()`: distinct values in order of first occurrence. -/
def uniqueFirst (l : List Val) : List Val := uniqueAux [] l

/-- Python `str(...)` on a cell value, as used on the already
missing-value-free uniques.  On string cells it is the identity; numeric
renderings only need to agree on both sides of each claim. -/
def pyStr (v : Val) : String :=
  match v with
  | Val.str s => s
  | Val.num q => toString q
  | Val.nan => "nan"
  | Val.pynone => "None"

/-- `RiderSearchEngine.get_unique_values` (lines 158-171). -/
def get_unique_values (df : DataFrame) (column : String) : List String :=
  if column ∈ df.cols then
    sortStrs ((uniqueFirst ((colValues df column).filter fun v => !(isNA v))).map pyStr)
  else []

/-- Pandas `Series.mean()` with default `skipna=True`: the mean of the
numeric non-NaN entries, NaN when there are none (in particular on an empty
column). -/
def seriesMean (vals : List Val) : PyFloat :=
  let nums := vals.filterMap fun v =>
    match v with
    | Val.num q => some q
    | _ => none
  if nums.isEmpty then PyFloat.nan else PyFloat.num (nums.sum / (nums.length : ℚ))

/-- Pandas `Series.nunique()`: count of distinct non-missing values. -/
def nuniqueCol (df : DataFrame) (c : String) : Nat :=
  (uniqueFirst ((colValues df c).filter fun v => !(isNA v))).length

/-- Result record of `get_stats`. -/
structure Stats where
  total_riders : Nat
  countries : Nat
  teams : Nat
  avg_age : PyFloat
deriving DecidableEq, Repr

/-- `RiderSearchEngine.get_stats` (lines 173-191) applied to a dataframe
(the stored one or a supplied filtered view). -/
def get_stats (df : DataFrame) : Stats :=
  { total_riders := df.rows.length
    countries := if "Nationality" ∈ df.cols then nuniqueCol df "Nationality" else 0
    teams := if "Team" ∈ df.cols then nuniqueCol df "Team" else 0
    avg_age := if "Age" ∈ df.cols then seriesMean (colValues df "Age") else PyFloat.num 0 }

/-! ### Loader, `loader.py` lines 47-73 -/

/-- Short-code stat columns listed in `load_riders_data`. -/
def statColumnCodes : List String :=
  ["FL", "MO", "HL", "BA", "DH", "CS", "TT", "PR", "SP", "AC", "ST", "RS", "RC"]

/-- The stat columns present in the loaded dataframe. -/
def existingStatCols (df : DataFrame) : List String :=
  statColumnCodes.filter fun c => c ∈ df.cols

/-- `pd.to_numeric(x, errors="coerce")` on one cell: numeric values pass
through, parseable strings become their number, everything else NaN. -/
def toNumeric (v : Val) : Val :=
  match v with
  | Val.num q => Val.num q
  | Val.nan => Val.nan
  | Val.pynone => Val.nan
  | Val.str s =>
    match parseFloat s with
    | some (PyFloat.num q) => Val.num q
    | some PyFloat.nan => Val.nan
    | none => Val.nan

/-- Write one cell of a row (pandas column assignment restricted to the
row): replace the value when the column is present, append it otherwise. -/
def setCell (r : Row) (c : String) (v : Val) : Row :=
  if r.any fun p => p.1 == c then r.map fun p => if p.1 == c then (c, v) else p
  else r ++ [(c, v)]

/-- Apply `to_numeric` to the listed stat columns of one row (the coercion
loop of lines 66-67, viewed row-wise). -/
def coerceStatsRow (cols : List String) (r : Row) : Row :=
  cols.foldl (fun acc c => setCell acc c (toNumeric (rowVal acc c))) r

/-- Floor of a rational as an integer, via flooring integer division. -/
def ratFloor (q : ℚ) : ℤ := q.num.fdiv (q.den : ℤ)

/-- Round a rational to the nearest integer, ties to even - the behaviour of
numpy/pandas `round` on exactly representable values. -/
def roundHalfEven (q : ℚ) : ℤ :=
  let f := ratFloor q
  let r := q - (f : ℚ)
  if r < 1 / 2 then f
  else if (1 / 2 : ℚ) < r then f + 1
  else if f % 2 = 0 then f else f + 1

/-- Round to one decimal place, as `Series.round(1)` (line 73); NaN stays
NaN. -/
def round1Q (q : ℚ) : ℚ := (roundHalfEven (q * 10) : ℚ) / 10

/-- The `Eval` cell of one (already coerced) row: row-wise mean of the stat
columns with `skipna=True`, then rounded to one decimal; NaN when no stat
value is present (lines 70-73). -/
def evalCell (cols : List String) (r : Row) : Val :=
  let nums := cols.filterMap fun c =>
    match rowVal r c with
    | Val.num q => some q
    | _ => none
  if nums.isEmpty then Val.nan
  else Val.num (round1Q (nums.sum / (nums.length : ℚ)))

/-- Lines 47-73 of `load_riders_data`: coerce the existing short-code stat
columns to numeric and compute the derived `Eval` column once, at load
time.  When no stat column exists the dataframe is returned unchanged (the
`else` branch only warns). -/
def load_transform (df : DataFrame) : DataFrame :=
  let existing := existingStatCols df
  if existing.isEmpty then df
  else
    { cols := if "Eval" ∈ df.cols then df.cols else df.cols ++ ["Eval"]
      rows := df.rows.map fun ir =>
        let r' := coerceStatsRow existing ir.2
        (ir.1, setCell r' "Eval" (evalCell existing r')) }

/-! ### Object store model for construction-time copying

`RiderSearchEngine.__init__` stores `df.copy()` (line 16).  To state the
copy-on-construct claim, Python object references are modelled explicitly:
a store is a heap of dataframe objects addressed by position, the caller
holds a reference, and construction allocates a *fresh* object holding a
value-copy of the caller's dataframe.  `search` reads the engine's object
and performs no store write (its body never assigns `self.df`). -/

structure Store where
  heap : List DataFrame
deriving DecidableEq, Repr

/-- Dereference (an out-of-range reference yields an empty dataframe; the
claims only use valid references). -/
def storeGet (s : Store) (r : Nat) : DataFrame :=
  s.heap.getD r { cols := [], rows := [] }

/-- In-place mutation of the object behind a reference. -/
def storeSet (s : Store) (r : Nat) (d : DataFrame) : Store :=
  { heap := s.heap.set r d }

/-- Allocate a new object, returning its reference. -/
def storeAlloc (s : Store) (d : DataFrame) : Store × Nat :=
  ({ heap := s.heap ++ [d] }, s.heap.length)

/-- `RiderSearchEngine.__init__`: allocate a copy of the caller's dataframe
and remember the fresh reference. -/
def engineInit (s : Store) (callerRef : Nat) : Store × Nat :=
  storeAlloc s (copyDF (storeGet s callerRef))

/-- `RiderSearchEngine.search` as a state transformer: computes the filtered
view from the engine's stored object and leaves every object unchanged. -/
def engineSearch (s : Store) (engineRef : Nat) (p : SearchParams) : DataFrame × Store :=
  (searchImpl (storeGet s engineRef) p, s)

/-! ### Claim-side definitions (stated in the spec's vocabulary) -/

/-- Modelled from the spec: Step-C coercion, "coerce every Step-A stat
column's value to a number (non-numeric or missing → treated as 0)" - in
particular a missing (NaN) value becomes 0 here, unlike in `coerceStat`. -/
def statQ (r : Row) (c : String) : ℚ :=
  match coerceStat (rowVal r c) with
  | PyFloat.num q => q
  | PyFloat.nan => 0

/-- Maximum of a rational list with a seed, by left fold. -/
def listMaxQ (a : ℚ) (l : List ℚ) : ℚ := l.foldl max a

/-- Modelled from the spec: "the maximum value across all stat columns for
that row", over the Step-C coerced values. -/
def rowMaxQ (statCols : List String) (r : Row) : ℚ :=
  match statCols with
  | [] => 0
  | c :: cs => listMaxQ (statQ r c) (cs.map (statQ r))

/-- Claim-side view of `to_numeric`: the rational value of a cell that
coerces to a (non-NaN) number, `none` otherwise. -/
def toNumericQ (v : Val) : Option ℚ :=
  match toNumeric v with
  | Val.num q => some q
  | _ => none

/-- Every synonym term accepted by the specialization mapping. -/
def allSpecTerms : List String :=
  ["mountain", "climber", "hill", "sprint", "flat", "time trial", "tt", "chrono",
   "classics", "cobbles", "overall", "general classification", "gc"]

/-! ### Concrete data used by the claims -/

/-- Search parameters with every filter unset. -/
def noParams : SearchParams :=
  ⟨none, none, none, none, none, none, none, none⟩

/-- Parameters setting only the specialization filter. -/
def specOnlyParams (s : String) : SearchParams :=
  ⟨none, none, none, none, none, none, none, some s⟩

/-- The `Alice` row of the spec's worked example. -/
def aliceRow : Row :=
  [("Name", Val.str "Alice"), ("Team", Val.str "TeamA"), ("Age", Val.num 25),
   ("MO", Val.num 70), ("SP", Val.num 60)]

/-- The `Bob` row of the spec's worked example. -/
def bobRow : Row :=
  [("Name", Val.str "Bob"), ("Team", Val.str "TeamB"), ("Age", Val.num 30),
   ("MO", Val.num 60), ("SP", Val.num 75)]

/-- The spec's worked-example dataframe (short-code stat columns). -/
def exampleDF : DataFrame :=
  { cols := ["Name", "Team", "Age", "MO", "SP"], rows := [(0, aliceRow), (1, bobRow)] }

/-- A one-row dataframe with keyword-named stat columns and a NaN stat. -/
def nanRow : Row := [("mountain", Val.nan), ("sprint", Val.num 50)]

/-- Dataframe witnessing the NaN behaviour of the specialization filter. -/
def nanDF : DataFrame := { cols := ["mountain", "sprint"], rows := [(0, nanRow)] }

/-- A zero-row dataframe that still has an `Age` column. -/
def emptyAgeDF : DataFrame := { cols := ["Name", "Age"], rows := [] }

/-- A row whose mountain and sprint stats tie. -/
def tieRow : Row := [("mountain", Val.num 80), ("sprint", Val.num 80)]

/-- One-row dataframe with keyword-named stat columns and a stat tie. -/
def tieDF : DataFrame := { cols := ["mountain", "sprint"], rows := [(0, tieRow)] }

/-! ## Basic lemmas about the filter steps -/

theorem copyDF_eq (df : DataFrame) : copyDF df = df := rfl

theorem textFilter_cols (c : String) (q : Option String) (df : DataFrame) :
    (textFilter c q df).cols = df.cols := by
  cases q with
  | none => rfl
  | some s =>
    simp only [textFilter]
    split
    · rfl
    · split <;> rfl

theorem ageFilter_cols (mA MA : Option Int) (df : DataFrame) :
    (ageFilter mA MA df).cols = df.cols := by
  unfold ageFilter
  split
  · cases mA <;> cases MA <;> rfl
  · rfl

theorem overallFilter_cols (mO MO : Option Int) (df : DataFrame) :
    (overallFilter mO MO df).cols = df.cols := by
  unfold overallFilter
  split
  · cases mO <;> cases MO <;> rfl
  · rfl

theorem filterBySpecialization_cols (df : DataFrame) (s : String) :
    (filterBySpecialization df s).cols = df.cols := by
  simp only [filterBySpecialization]
  split
  · rfl
  · split
    · rfl
    · split <;> rfl

theorem specFilter_cols (sp : Option String) (df : DataFrame) :
    (specFilter sp df).cols = df.cols := by
  cases sp with
  | none => rfl
  | some s =>
    simp only [specFilter]
    split
    · rfl
    · exact filterBySpecialization_cols _ _

theorem textFilter_noneq (c : String) (df : DataFrame) : textFilter c none df = df := rfl

theorem textFilter_blank (c : String) (s : String) (df : DataFrame) (h : pyStrip s = "") :
    textFilter c (some s) df = df := by
  simp only [textFilter]
  rw [if_pos h]

theorem textFilter_absent (c : String) (q : Option String) (df : DataFrame)
    (h : c ∉ df.cols) : textFilter c q df = df := by
  cases q with
  | none => rfl
  | some s =>
    simp only [textFilter, if_neg h]
    split <;> rfl

theorem ageFilter_noneq (df : DataFrame) : ageFilter none none df = df := by
  unfold ageFilter
  split <;> rfl

theorem ageFilter_absent (mA MA : Option Int) (df : DataFrame) (h : "Age" ∉ df.cols) :
    ageFilter mA MA df = df := by
  unfold ageFilter
  rw [if_neg h]

theorem overallFilter_noneq (df : DataFrame) : overallFilter none none df = df := by
  unfold overallFilter
  split <;> rfl

theorem overallFilter_absent (mO MO : Option Int) (df : DataFrame)
    (h : "Overall" ∉ df.cols) : overallFilter mO MO df = df := by
  unfold overallFilter
  rw [if_neg h]

theorem specFilter_noneq (df : DataFrame) : specFilter none df = df := rfl

theorem filterBySpecialization_stat_nil (df : DataFrame) (s : String)
    (h : statColumnsOf df = []) : filterBySpecialization df s = df := by
  simp only [filterBySpecialization]
  rw [if_pos (by simp [h])]

theorem targetColumnsOf_nil_of_stat_nil (s : String) :
    targetColumnsOf [] s = [] := by
  unfold targetColumnsOf
  cases lookupTerms s <;> simp

theorem filterBySpecialization_tgt_nil (df : DataFrame) (s : String)
    (h : targetColumnsOf (statColumnsOf df) s = []) : filterBySpecialization df s = df := by
  simp only [filterBySpecialization]
  split
  · rfl
  · rw [if_pos (by simp [h])]

/-! ## Claim C4: `get_stats` on an empty view -/

/-- C4 counterexample: on the zero-row view with an `Age` column,
`get_stats` returns `avg_age = NaN` (the pandas mean of an empty column),
not `0` as the claim states. -/
theorem C4_counterexample :
    (get_stats emptyAgeDF).total_riders = 0
    ∧ (get_stats emptyAgeDF).avg_age = PyFloat.nan
    ∧ (get_stats emptyAgeDF).avg_age ≠ PyFloat.num 0 := by decide

/-- C4 (amended): `get_stats` on a zero-row view always succeeds and returns
`total_riders = 0`; its `avg_age` is `0` when the `Age` column is absent but
`NaN` (not `0`) when the `Age` column is present; for any view without an
`Age` column the reported mean age is `0`. -/
theorem C4_get_stats_empty_view (df : DataFrame) :
    (df.rows = [] →
      (get_stats df).total_riders = 0
      ∧ (get_stats df).avg_age = (if "Age" ∈ df.cols then PyFloat.nan else PyFloat.num 0))
    ∧ ("Age" ∉ df.cols → (get_stats df).avg_age = PyFloat.num 0) := by
  constructor
  · intro h
    refine ⟨by simp [get_stats, h], ?_⟩
    unfold get_stats
    dsimp only
    split
    · simp [seriesMean, colValues, h]
    · rfl
  · intro h
    simp [get_stats, h]

/-- C4 witness: the amended statement evaluated on the concrete zero-row
view with an `Age` column. -/
theorem C4_get_stats_empty_view_witness :
    (get_stats emptyAgeDF).total_riders = 0
    ∧ (get_stats emptyAgeDF).avg_age
        = (if "Age" ∈ emptyAgeDF.cols then PyFloat.nan else PyFloat.num 0) := by
  exact (C4_get_stats_empty_view emptyAgeDF).1 (by decide)

/-! ## Claim C2: the spec's worked example -/

/-- C2: evaluation of the engine on the spec's worked-example dataset.  The
specialization query `"mountain"` returns *both* rows, because neither `MO`
nor `SP` contains any Step-A keyword as a substring, so the specialization
filter is a no-op on short-code columns; the claim (and the spec's example)
expects only Alice.  The `min_age` and `get_unique_values` parts of the
claim do hold. -/
theorem C2_worked_example :
    (searchImpl exampleDF (specOnlyParams "mountain")).rows = [(0, aliceRow), (1, bobRow)]
    ∧ (searchImpl exampleDF (specOnlyParams "mountain")).rows ≠ [(0, aliceRow)]
    ∧ (searchImpl exampleDF ⟨none, none, none, some 28, none, none, none, none⟩).rows
        = [(1, bobRow)]
    ∧ get_unique_values exampleDF "Team" = ["TeamA", "TeamB"] := by decide

/-! ## Claim C7: missing columns and unset parameters are no-ops -/

/-- C7: each filter step of `search` returns its input unchanged when the
column it needs is absent or its parameter is unset (and a whitespace-only
text query counts as unset); in particular a nationality filter on a
dataframe without a `Nationality` column behaves exactly as if the filter
were unset, and `search` never fails. -/
theorem C7_steps_noop (df : DataFrame) :
    (∀ c q, c ∉ df.cols → textFilter c q df = df)
    ∧ (∀ c, textFilter c none df = df)
    ∧ (∀ c s, pyStrip s = "" → textFilter c (some s) df = df)
    ∧ ("Age" ∉ df.cols → ∀ mA MA, ageFilter mA MA df = df)
    ∧ ageFilter none none df = df
    ∧ ("Overall" ∉ df.cols → ∀ mO MO, overallFilter mO MO df = df)
    ∧ overallFilter none none df = df
    ∧ specFilter none df = df
    ∧ (statColumnsOf df = [] → ∀ sp, specFilter sp df = df)
    ∧ ("Nationality" ∉ df.cols → ∀ nq tm mA MA mO MO sp nt,
        searchImpl df ⟨nq, nt, tm, mA, MA, mO, MO, sp⟩
          = searchImpl df ⟨nq, none, tm, mA, MA, mO, MO, sp⟩) := by
  refine ⟨fun c q h => textFilter_absent c q df h,
    fun c => rfl,
    fun c s h => textFilter_blank c s df h,
    fun h mA MA => ageFilter_absent mA MA df h,
    ageFilter_noneq df,
    fun h mO MO => overallFilter_absent mO MO df h,
    overallFilter_noneq df,
    rfl,
    ?_, ?_⟩
  · intro h sp
    cases sp with
    | none => rfl
    | some s =>
      simp only [specFilter]
      split
      · rfl
      · exact filterBySpecialization_stat_nil df _ h
  · intro h nq tm mA MA mO MO sp nt
    simp only [searchImpl]
    have hcols : "Nationality" ∉ (textFilter "Name" nq (copyDF df)).cols := by
      rw [textFilter_cols]
      exact h
    rw [textFilter_absent _ _ _ hcols]
    rfl

/-- C7 witness: the no-op behaviour evaluated on concrete dataframes that
lack the respective columns (`nanDF` has neither `Name`, `Age`, `Overall`
nor `Nationality`; `exampleDF` has no keyword stat column). -/
theorem C7_steps_noop_witness :
    textFilter "Name" (some "x") nanDF = nanDF
    ∧ ageFilter (some 1) (some 2) nanDF = nanDF
    ∧ overallFilter (some 1) none nanDF = nanDF
    ∧ textFilter "Team" (some "  ") exampleDF = exampleDF
    ∧ specFilter (some "mountain") exampleDF = exampleDF
    ∧ searchImpl nanDF ⟨none, some "fr", none, none, none, none, none, none⟩
        = searchImpl nanDF ⟨none, none, none, none, none, none, none, none⟩ := by
  refine ⟨(C7_steps_noop nanDF).1 "Name" (some "x") (by decide),
    (C7_steps_noop nanDF).2.2.2.1 (by decide) (some 1) (some 2),
    (C7_steps_noop nanDF).2.2.2.2.2.1 (by decide) (some 1) none,
    (C7_steps_noop exampleDF).2.2.1 "Team" "  " (by decide),
    (C7_steps_noop exampleDF).2.2.2.2.2.2.2.2.1 (by decide) (some "mountain"),
    (C7_steps_noop nanDF).2.2.2.2.2.2.2.2.2 (by decide) none none none none none none none
      (some "fr")⟩

/-! ## Claim C5: construction-time copy, purity of `search` -/

theorem storeGet_alloc_self (s : Store) (d : DataFrame) :
    storeGet (storeAlloc s d).1 (storeAlloc s d).2 = d := by
  simp [storeGet, storeAlloc, List.getD]

theorem storeGet_set_ne (s : Store) (r1 r2 : Nat) (d : DataFrame) (h : r1 ≠ r2) :
    storeGet (storeSet s r2 d) r1 = storeGet s r1 := by
  simp [storeGet, storeSet, List.getD, List.getElem?_set_ne (Ne.symm h)]

/-- C5: with object references modelled explicitly, constructing the engine
from the caller's dataframe allocates a fresh copy, so (i) mutating the
caller's object afterwards does not change any later `search` result,
(ii) `search` never writes to the store (the held dataset is unchanged after
any search), (iii) two successive identical `search` calls return identical
output, and (iv) the engine's stored object is a value-copy of the caller's
dataframe at construction time. -/
theorem C5_engine_copy_and_purity (s : Store) (c : Nat) (hc : c < s.heap.length)
    (d' : DataFrame) (p : SearchParams) :
    (engineSearch (storeSet (engineInit s c).1 c d') (engineInit s c).2 p).1
      = (engineSearch (engineInit s c).1 (engineInit s c).2 p).1
    ∧ (engineSearch (engineInit s c).1 (engineInit s c).2 p).2 = (engineInit s c).1
    ∧ (engineSearch ((engineSearch (engineInit s c).1 (engineInit s c).2 p).2)
          (engineInit s c).2 p).1
        = (engineSearch (engineInit s c).1 (engineInit s c).2 p).1
    ∧ storeGet (engineInit s c).1 (engineInit s c).2 = copyDF (storeGet s c) := by
  have hne : (engineInit s c).2 ≠ c := by
    simp only [engineInit, storeAlloc]
    omega
  refine ⟨?_, rfl, rfl, ?_⟩
  · simp only [engineSearch]
    rw [storeGet_set_ne _ _ _ _ hne]
  · exact storeGet_alloc_self s _

/-- C5 witness: the copy/purity statement evaluated on a concrete one-object
store holding the worked-example dataframe. -/
theorem C5_engine_copy_and_purity_witness :
    (engineSearch (storeSet (engineInit ⟨[exampleDF]⟩ 0).1 0 emptyAgeDF)
        (engineInit ⟨[exampleDF]⟩ 0).2 noParams).1
      = (engineSearch (engineInit ⟨[exampleDF]⟩ 0).1 (engineInit ⟨[exampleDF]⟩ 0).2 noParams).1
    ∧ storeGet (engineInit ⟨[exampleDF]⟩ 0).1 (engineInit ⟨[exampleDF]⟩ 0).2
        = copyDF (storeGet ⟨[exampleDF]⟩ 0) := by
  exact ⟨(C5_engine_copy_and_purity ⟨[exampleDF]⟩ 0 (by decide) emptyAgeDF noParams).1,
    (C5_engine_copy_and_purity ⟨[exampleDF]⟩ 0 (by decide) emptyAgeDF noParams).2.2.2⟩

/-! ## Claim C10: unknown terms are no-ops, synonyms equal their category -/

theorem searchImpl_specOnly (df : DataFrame) (s : String) :
    searchImpl df (specOnlyParams s) = specFilter (some s) df := by
  simp only [searchImpl, specOnlyParams]
  rw [ageFilter_noneq, overallFilter_noneq]
  rfl

theorem lookupTerms_none (s : String) (h : s ∉ allSpecTerms) : lookupTerms s = none := by
  simp only [allSpecTerms, List.mem_cons, List.not_mem_nil, or_false, not_or] at h
  obtain ⟨h1, h2, h3, h4, h5, h6, h7, h8, h9, h10, h11, h12, h13⟩ := h
  simp [lookupTerms, specMapping, List.findSome?, h1, h2, h3, h4, h5, h6, h7, h8, h9,
    h10, h11, h12, h13]

theorem filterBySpecialization_congr (df : DataFrame) {s1 s2 : String}
    (h : lookupTerms s1 = lookupTerms s2) :
    filterBySpecialization df s1 = filterBySpecialization df s2 := by
  simp only [filterBySpecialization, targetColumnsOf]
  rw [h]

/-- C10: a specialization string that after strip + lowercase is not one of
the thirteen synonym terms makes `search` return its input unchanged (and
nothing raises); conversely every synonym term filters exactly as the
category it belongs to. -/
theorem C10_specialization_terms (df : DataFrame) :
    (∀ s : String, pyLower (pyStrip s) ∉ allSpecTerms →
      searchImpl df (specOnlyParams s) = df)
    ∧ (∀ key terms, (key, terms) ∈ specMapping → ∀ t ∈ terms,
      searchImpl df (specOnlyParams t) = searchImpl df (specOnlyParams key)) := by
  constructor
  · intro s h
    rw [searchImpl_specOnly]
    simp only [specFilter]
    split
    · rfl
    · refine filterBySpecialization_tgt_nil df _ ?_
      unfold targetColumnsOf
      rw [lookupTerms_none _ h]
  · intro key terms hmem t ht
    fin_cases hmem <;> fin_cases ht <;>
      simp only [searchImpl_specOnly, specFilter] <;>
      · rw [if_neg (by decide), if_neg (by decide)]
        exact filterBySpecialization_congr df (by decide)

/-- C10 witness: an unknown term (`"puncheur"`) is a no-op on the worked
example, and the synonym `"climber"` filters exactly as `"mountain"`. -/
theorem C10_specialization_terms_witness :
    searchImpl exampleDF (specOnlyParams "puncheur") = exampleDF
    ∧ searchImpl exampleDF (specOnlyParams "climber")
        = searchImpl exampleDF (specOnlyParams "mountain") := by
  exact ⟨(C10_specialization_terms exampleDF).1 "puncheur" (by decide),
    (C10_specialization_terms exampleDF).2 "mountain" ["mountain", "climber", "hill"]
      (by decide) "climber" (by decide)⟩

/-! ## `df.loc[indices]` under distinct index labels -/

theorem filter_fst_beq_of_nodup {α : Type} (rows : List (Nat × α))
    (hnd : (rows.map Prod.fst).Nodup) (ir : Nat × α) (hir : ir ∈ rows) :
    (rows.filter fun x => x.1 == ir.1) = [ir] := by
  induction rows with
  | nil => cases hir
  | cons r rest ih =>
    rw [List.map_cons, List.nodup_cons] at hnd
    obtain ⟨hr, hnd'⟩ := hnd
    rcases List.mem_cons.mp hir with heq | hmem
    · subst heq
      rw [List.filter_cons, if_pos (by simp)]
      have h2 : rest.filter (fun x => x.1 == ir.1) = [] := by
        rw [List.filter_eq_nil_iff]
        intro a ha hb
        exact hr (List.mem_map.mpr ⟨a, ha, beq_iff_eq.mp hb⟩)
      rw [h2]
    · have hne : ¬ (r.1 == ir.1) = true := by
        intro hb
        exact hr (List.mem_map.mpr ⟨ir, hmem, (beq_iff_eq.mp hb).symm⟩)
      rw [List.filter_cons, if_neg hne]
      exact ih hnd' hmem

theorem flatMap_sel_eq {α : Type} (rows sel : List (Nat × α))
    (hnd : (rows.map Prod.fst).Nodup) (hsub : ∀ ir ∈ sel, ir ∈ rows) :
    (sel.map Prod.fst).flatMap (fun i => rows.filter fun ir => ir.1 == i) = sel := by
  induction sel with
  | nil => rfl
  | cons ir sel' ih =>
    simp only [List.map_cons, List.flatMap_cons]
    rw [filter_fst_beq_of_nodup rows hnd ir (hsub ir (by simp)),
      ih fun x hx => hsub x (by simp [hx])]
    rfl

theorem filterBySpecialization_rows (df : DataFrame) (spec : String)
    (hnd : (df.rows.map Prod.fst).Nodup)
    (hstat : statColumnsOf df ≠ [])
    (htgt : targetColumnsOf (statColumnsOf df) spec ≠ []) :
    (filterBySpecialization df spec).rows
      = df.rows.filter fun ir =>
          keepRow (statColumnsOf df) (targetColumnsOf (statColumnsOf df) spec) ir.2 := by
  simp only [filterBySpecialization]
  rw [if_neg (by simp [hstat]), if_neg (by simp [htgt])]
  split
  · rename_i hk
    have h0 : (df.rows.filter fun ir =>
        keepRow (statColumnsOf df) (targetColumnsOf (statColumnsOf df) spec) ir.2) = [] := by
      have := List.map_eq_nil_iff.mp (List.isEmpty_iff.mp hk)
      exact this
    rw [h0]
  · exact flatMap_sel_eq _ _ hnd fun ir hir => List.mem_of_mem_filter hir

theorem filterBySpecialization_sublist (df : DataFrame) (spec : String)
    (hnd : (df.rows.map Prod.fst).Nodup) :
    List.Sublist (filterBySpecialization df spec).rows df.rows := by
  by_cases h1 : statColumnsOf df = []
  · rw [filterBySpecialization_stat_nil df spec h1]
  · by_cases h2 : targetColumnsOf (statColumnsOf df) spec = []
    · rw [filterBySpecialization_tgt_nil df spec h2]
    · rw [filterBySpecialization_rows df spec hnd h1 h2]
      exact List.filter_sublist _

/-! ## Characterisation of `keepRow` on NaN-free rows -/

theorem lookup_map_pair {β : Type} (l : List String) (g : String → β) (c : String) :
    List.lookup c (l.map fun x => (x, g x)) = if c ∈ l then some (g c) else none := by
  induction l with
  | nil => rfl
  | cons a t ih =>
    by_cases hc : c = a
    · subst hc
      simp [List.lookup]
    · have hb : (c == a) = false := beq_eq_false_iff_ne.mpr hc
      simp [List.lookup, hb, hc, ih]

theorem dictGet_statValues (statCols : List String) (r : Row) (c : String)
    (h : c ∈ statCols) :
    dictGet (statValuesOf statCols r) c = coerceStat (rowVal r c) := by
  simp [dictGet, statValuesOf, lookup_map_pair, h]

theorem coerce_num_statQ (r : Row) (c : String)
    (h : coerceStat (rowVal r c) ≠ PyFloat.nan) :
    coerceStat (rowVal r c) = PyFloat.num (statQ r c) := by
  unfold statQ
  cases hc : coerceStat (rowVal r c) with
  | num q => rfl
  | nan => exact absurd hc h

theorem foldl_pyMax_map (g : String → ℚ) (l : List String) (a : ℚ) :
    (l.map fun c => PyFloat.num (g c)).foldl
        (fun acc v => if pyGt v acc then v else acc) (PyFloat.num a)
      = PyFloat.num ((l.map g).foldl max a) := by
  induction l generalizing a with
  | nil => rfl
  | cons c t ih =>
    simp only [List.map_cons, List.foldl_cons]
    have hstep : (if pyGt (PyFloat.num (g c)) (PyFloat.num a) = true then PyFloat.num (g c)
        else PyFloat.num a) = PyFloat.num (max a (g c)) := by
      by_cases hlt : a < g c
      · rw [if_pos (by simp [pyGt, hlt]), max_eq_right hlt.le]
      · rw [if_neg (by simp [pyGt, hlt]), max_eq_left (le_of_not_lt hlt)]
    rw [hstep, ih]

theorem pyMax_statValues (c0 : String) (cs : List String) (r : Row)
    (hnum : ∀ x ∈ c0 :: cs, coerceStat (rowVal r x) ≠ PyFloat.nan) :
    pyMaxList ((statValuesOf (c0 :: cs) r).map Prod.snd)
      = PyFloat.num (rowMaxQ (c0 :: cs) r) := by
  have hmap : (statValuesOf (c0 :: cs) r).map Prod.snd
      = (c0 :: cs).map fun c => PyFloat.num (statQ r c) := by
    simp only [statValuesOf, List.map_map]
    refine List.map_congr_left fun x hx => ?_
    exact coerce_num_statQ r x (hnum x hx)
  rw [hmap, List.map_cons]
  simp only [pyMaxList]
  rw [foldl_pyMax_map]
  rfl

theorem targetColumnsOf_subset (sc : List String) (s : String) :
    ∀ c ∈ targetColumnsOf sc s, c ∈ sc := by
  unfold targetColumnsOf
  cases lookupTerms s with
  | none => simp
  | some terms => exact fun c hc => List.mem_of_mem_filter hc

theorem statCols_ne_of_tgt_ne {sc : List String} {s : String}
    (h : targetColumnsOf sc s ≠ []) : sc ≠ [] := by
  intro hsc
  exact h (by rw [hsc]; exact targetColumnsOf_nil_of_stat_nil s)

theorem keepRow_iff (tgts : List String) (r : Row) (c0 : String) (cs : List String)
    (hsub : ∀ c ∈ tgts, c ∈ c0 :: cs)
    (hnum : ∀ c ∈ c0 :: cs, coerceStat (rowVal r c) ≠ PyFloat.nan) :
    (keepRow (c0 :: cs) tgts r = true)
      ↔ ∃ c ∈ tgts, statQ r c = rowMaxQ (c0 :: cs) r := by
  simp only [keepRow]
  rw [if_neg (by simp [statValuesOf])]
  rw [pyMax_statValues c0 cs r hnum]
  rw [List.any_eq_true]
  constructor
  · rintro ⟨c, hc, hEq⟩
    refine ⟨c, hc, ?_⟩
    rw [dictGet_statValues _ _ _ (hsub c hc),
      coerce_num_statQ r c (hnum c (hsub c hc))] at hEq
    simpa [pyEqF] using hEq
  · rintro ⟨c, hc, hEq⟩
    refine ⟨c, hc, ?_⟩
    rw [dictGet_statValues _ _ _ (hsub c hc),
      coerce_num_statQ r c (hnum c (hsub c hc))]
    simpa [pyEqF] using hEq

theorem foldl_max_zero (l : List ℚ) (h : ∀ x ∈ l, x = 0) : l.foldl max 0 = 0 := by
  induction l with
  | nil => rfl
  | cons a t ih =>
    rw [List.foldl_cons, h a (by simp), max_self]
    exact ih fun x hx => h x (by simp [hx])

/-! ## Claim C1: the specialization keep-rule -/

/-- C1 counterexample: on a one-row dataframe whose `mountain` stat is NaN
and whose `sprint` stat is 50, the target set for `"sprint"` is non-empty
and the target column attains the row maximum of the Step-C coerced values
(NaN coerced to 0, maximum 50), so the claim requires the row to be kept -
but the code's `float()` call keeps NaN (it does not raise), the Python
`max` then returns NaN, `== NaN` is false, and the row is dropped. -/
theorem C1_counterexample :
    targetColumnsOf (statColumnsOf nanDF) "sprint" ≠ []
    ∧ (∃ c ∈ targetColumnsOf (statColumnsOf nanDF) "sprint",
        statQ nanRow c = rowMaxQ (statColumnsOf nanDF) nanRow)
    ∧ (0, nanRow) ∈ nanDF.rows
    ∧ (0, nanRow) ∉ (searchImpl nanDF (specOnlyParams "sprint")).rows := by decide

/-- C1 (amended): for every dataframe with distinct row index labels whose
stat-column values all coerce without producing NaN (i.e. every value is
numeric, `None`, or a string - so coercion either yields a number or raises
and is replaced by 0), and every specialization string in normal form with a
non-empty target-column set, `search` keeps a row iff at least one target
column attains the row's maximum coerced stat value; ties qualify; and a row
whose coerced stat values are all 0 is kept.  (The original claim's
"missing → 0" fails for float NaN, which `float()` passes through; such a
row is never kept.) -/
theorem C1_specialization_keep_iff (df : DataFrame) (spec : String)
    (hnd : (df.rows.map Prod.fst).Nodup)
    (hnn : ∀ ir ∈ df.rows, ∀ c ∈ statColumnsOf df,
      coerceStat (rowVal ir.2 c) ≠ PyFloat.nan)
    (hnorm : pyLower (pyStrip spec) = spec)
    (htgt : targetColumnsOf (statColumnsOf df) spec ≠ []) :
    (∀ ir ∈ df.rows,
      (ir ∈ (searchImpl df (specOnlyParams spec)).rows ↔
        ∃ c ∈ targetColumnsOf (statColumnsOf df) spec,
          statQ ir.2 c = rowMaxQ (statColumnsOf df) ir.2))
    ∧ (∀ ir ∈ df.rows, (∀ c ∈ statColumnsOf df, statQ ir.2 c = 0) →
        ir ∈ (searchImpl df (specOnlyParams spec)).rows) := by
  have hstat : statColumnsOf df ≠ [] := statCols_ne_of_tgt_ne htgt
  have hstrip : ¬ pyStrip spec = "" := by
    intro h0
    have hsp : spec = "" := by rw [← hnorm, h0]; rfl
    refine htgt ?_
    rw [hsp]
    unfold targetColumnsOf
    rw [show lookupTerms "" = none from by decide]
  have hsearch : searchImpl df (specOnlyParams spec) = filterBySpecialization df spec := by
    rw [searchImpl_specOnly]
    simp only [specFilter]
    rw [if_neg hstrip, hnorm]
  obtain ⟨c0, cs, hsc⟩ : ∃ c0 cs, statColumnsOf df = c0 :: cs := by
    cases h : statColumnsOf df with
    | nil => exact absurd h hstat
    | cons a l => exact ⟨a, l, rfl⟩
  have hrows := filterBySpecialization_rows df spec hnd hstat htgt
  have hiff : ∀ ir ∈ df.rows,
      (ir ∈ (searchImpl df (specOnlyParams spec)).rows ↔
        ∃ c ∈ targetColumnsOf (statColumnsOf df) spec,
          statQ ir.2 c = rowMaxQ (statColumnsOf df) ir.2) := by
    intro ir hir
    rw [hsearch, hrows, List.mem_filter]
    rw [show keepRow (statColumnsOf df) (targetColumnsOf (statColumnsOf df) spec) ir.2
        = keepRow (c0 :: cs) (targetColumnsOf (statColumnsOf df) spec) ir.2 from by rw [hsc]]
    rw [keepRow_iff (targetColumnsOf (statColumnsOf df) spec) ir.2 c0 cs
      (fun c hc => hsc ▸ targetColumnsOf_subset _ _ c hc)
      (fun c hc => hnn ir hir c (hsc ▸ hc))]
    rw [show rowMaxQ (c0 :: cs) ir.2 = rowMaxQ (statColumnsOf df) ir.2 from by rw [hsc]]
    constructor
    · rintro ⟨_, h⟩
      exact h
    · intro h
      exact ⟨hir, h⟩
  refine ⟨hiff, ?_⟩
  intro ir hir hz
  obtain ⟨ct, hct⟩ : ∃ ct, ct ∈ targetColumnsOf (statColumnsOf df) spec := by
    cases h : targetColumnsOf (statColumnsOf df) spec with
    | nil => exact absurd h htgt
    | cons a l => exact ⟨a, by simp [h]⟩
  have hmax0 : rowMaxQ (statColumnsOf df) ir.2 = 0 := by
    rw [hsc]
    simp only [rowMaxQ, listMaxQ]
    rw [hz c0 (by rw [hsc]; exact List.mem_cons_self c0 cs)]
    exact foldl_max_zero _ fun x hx => by
      obtain ⟨c, hc, rfl⟩ := List.mem_map.mp hx
      exact hz c (by rw [hsc]; exact List.mem_cons_of_mem c0 hc)
  refine (hiff ir hir).mpr ⟨ct, hct, ?_⟩
  rw [hz ct (targetColumnsOf_subset _ _ ct hct), hmax0]

/-- C1 witness: the amended keep-rule evaluated on the concrete tie
dataframe: the row whose mountain and sprint stats both equal 80 is kept by
the `"sprint"` query (and the tie qualifies). -/
theorem C1_specialization_keep_iff_witness :
    (0, tieRow) ∈ (searchImpl tieDF (specOnlyParams "sprint")).rows := by
  refine ((C1_specialization_keep_iff tieDF "sprint" (by decide) (by decide) (by decide)
    (by decide)).1 (0, tieRow) (by decide)).mpr ?_
  exact ⟨"sprint", by decide, by decide⟩

/-! ## Claim C3: the result is a subsequence of the stored dataframe -/

theorem textFilter_rows_sublist (c : String) (q : Option String) (df : DataFrame) :
    List.Sublist (textFilter c q df).rows df.rows := by
  cases q with
  | none => exact List.Sublist.refl _
  | some s =>
    simp only [textFilter]
    split
    · exact List.Sublist.refl _
    · split
      · exact List.filter_sublist _
      · exact List.Sublist.refl _

theorem ageFilter_rows_sublist (mA MA : Option Int) (df : DataFrame) :
    List.Sublist (ageFilter mA MA df).rows df.rows := by
  simp only [ageFilter]
  split
  · cases mA with
    | none =>
      cases MA with
      | none => exact List.Sublist.refl _
      | some b => exact List.filter_sublist _
    | some a =>
      cases MA with
      | none => exact List.filter_sublist _
      | some b => exact List.Sublist.trans (List.filter_sublist _) (List.filter_sublist _)
  · exact List.Sublist.refl _

theorem overallFilter_rows_sublist (mO MO : Option Int) (df : DataFrame) :
    List.Sublist (overallFilter mO MO df).rows df.rows := by
  simp only [overallFilter]
  split
  · cases mO with
    | none =>
      cases MO with
      | none => exact List.Sublist.refl _
      | some b => exact List.filter_sublist _
    | some a =>
      cases MO with
      | none => exact List.filter_sublist _
      | some b => exact List.Sublist.trans (List.filter_sublist _) (List.filter_sublist _)
  · exact List.Sublist.refl _

theorem specFilter_rows_sublist (sp : Option String) (df : DataFrame)
    (hnd : (df.rows.map Prod.fst).Nodup) :
    List.Sublist (specFilter sp df).rows df.rows := by
  cases sp with
  | none => exact List.Sublist.refl _
  | some s =>
    simp only [specFilter]
    split
    · exact List.Sublist.refl _
    · exact filterBySpecialization_sublist _ _ hnd

/-- C3: for every dataframe with distinct row index labels and every
parameter combination, the rows returned by `search` form a subsequence of
the stored rows: original relative order, no duplication, no foreign rows. -/
theorem C3_search_subsequence (df : DataFrame) (p : SearchParams)
    (hnd : (df.rows.map Prod.fst).Nodup) :
    List.Sublist (searchImpl df p).rows df.rows := by
  simp only [searchImpl]
  have s1 : List.Sublist (textFilter "Name" p.name_query (copyDF df)).rows df.rows :=
    textFilter_rows_sublist _ _ _
  have s2 := textFilter_rows_sublist "Nationality" p.nationality
    (textFilter "Name" p.name_query (copyDF df))
  have s3 := textFilter_rows_sublist "Team" p.team
    (textFilter "Nationality" p.nationality (textFilter "Name" p.name_query (copyDF df)))
  have s4 := ageFilter_rows_sublist p.min_age p.max_age
    (textFilter "Team" p.team
      (textFilter "Nationality" p.nationality (textFilter "Name" p.name_query (copyDF df))))
  have s5 := overallFilter_rows_sublist p.min_overall p.max_overall
    (ageFilter p.min_age p.max_age
      (textFilter "Team" p.team
        (textFilter "Nationality" p.nationality
          (textFilter "Name" p.name_query (copyDF df)))))
  have s15 := (((s5.trans s4).trans s3).trans s2).trans s1
  have hnd5 := hnd.sublist (s15.map Prod.fst)
  exact (specFilter_rows_sublist p.specialization _ hnd5).trans s15

/-- C3 witness: the subsequence property evaluated on the worked example
with a concrete parameter combination. -/
theorem C3_search_subsequence_witness :
    (exampleDF.rows.map Prod.fst).Nodup
    ∧ List.Sublist (searchImpl exampleDF
        ⟨some "a", none, some "Team", some 20, some 40, none, none, some "sprint"⟩).rows
        exampleDF.rows :=
  ⟨by decide, C3_search_subsequence exampleDF _ (by decide)⟩

/-! ## Claim C6: narrowing a range filter never enlarges the result -/

theorem valGE_mono (v : Val) (a a' : Int) (h : a ≤ a') (hv : valGE v a' = true) :
    valGE v a = true := by
  cases v <;> simp [valGE] at hv ⊢
  exact le_trans (by exact_mod_cast h) hv

theorem valLE_mono (v : Val) (b b' : Int) (h : b' ≤ b) (hv : valLE v b' = true) :
    valLE v b = true := by
  cases v <;> simp [valLE] at hv ⊢
  exact le_trans hv (by exact_mod_cast h)

theorem ageFilter_narrow_min (a a' : Int) (h : a ≤ a') (MA : Option Int) (df : DataFrame) :
    (ageFilter (some a') MA df).cols = (ageFilter (some a) MA df).cols
    ∧ List.Sublist (ageFilter (some a') MA df).rows (ageFilter (some a) MA df).rows := by
  refine ⟨by rw [ageFilter_cols, ageFilter_cols], ?_⟩
  simp only [ageFilter]
  split
  · have hf : List.Sublist (df.rows.filter fun ir => valGE (rowVal ir.2 "Age") a')
        (df.rows.filter fun ir => valGE (rowVal ir.2 "Age") a) :=
      List.monotone_filter_right _ fun ir hir => valGE_mono _ _ _ h hir
    cases MA with
    | none => exact hf
    | some b => exact hf.filter _
  · exact List.Sublist.refl _

theorem ageFilter_narrow_max (b b' : Int) (h : b' ≤ b) (mA : Option Int) (df : DataFrame) :
    (ageFilter mA (some b') df).cols = (ageFilter mA (some b) df).cols
    ∧ List.Sublist (ageFilter mA (some b') df).rows (ageFilter mA (some b) df).rows := by
  refine ⟨by rw [ageFilter_cols, ageFilter_cols], ?_⟩
  simp only [ageFilter]
  split
  · cases mA with
    | none => exact List.monotone_filter_right _ fun ir hir => valLE_mono _ _ _ h hir
    | some a => exact List.monotone_filter_right _ fun ir hir => valLE_mono _ _ _ h hir
  · exact List.Sublist.refl _

theorem overallFilter_narrow_min (a a' : Int) (h : a ≤ a') (MO : Option Int)
    (df : DataFrame) :
    (overallFilter (some a') MO df).cols = (overallFilter (some a) MO df).cols
    ∧ List.Sublist (overallFilter (some a') MO df).rows
        (overallFilter (some a) MO df).rows := by
  refine ⟨by rw [overallFilter_cols, overallFilter_cols], ?_⟩
  simp only [overallFilter]
  split
  · have hf : List.Sublist (df.rows.filter fun ir => valGE (rowVal ir.2 "Overall") a')
        (df.rows.filter fun ir => valGE (rowVal ir.2 "Overall") a) :=
      List.monotone_filter_right _ fun ir hir => valGE_mono _ _ _ h hir
    cases MO with
    | none => exact hf
    | some b => exact hf.filter _
  · exact List.Sublist.refl _

theorem overallFilter_narrow_max (b b' : Int) (h : b' ≤ b) (mO : Option Int)
    (df : DataFrame) :
    (overallFilter mO (some b') df).cols = (overallFilter mO (some b) df).cols
    ∧ List.Sublist (overallFilter mO (some b') df).rows
        (overallFilter mO (some b) df).rows := by
  refine ⟨by rw [overallFilter_cols, overallFilter_cols], ?_⟩
  simp only [overallFilter]
  split
  · cases mO with
    | none => exact List.monotone_filter_right _ fun ir hir => valLE_mono _ _ _ h hir
    | some a => exact List.monotone_filter_right _ fun ir hir => valLE_mono _ _ _ h hir
  · exact List.Sublist.refl _

theorem overallFilter_mono (mO MO : Option Int) {d1 d2 : DataFrame}
    (hc : d1.cols = d2.cols) (hr : List.Sublist d1.rows d2.rows) :
    (overallFilter mO MO d1).cols = (overallFilter mO MO d2).cols
    ∧ List.Sublist (overallFilter mO MO d1).rows (overallFilter mO MO d2).rows := by
  refine ⟨by rw [overallFilter_cols, overallFilter_cols, hc], ?_⟩
  simp only [overallFilter]
  rw [hc]
  split
  · cases mO with
    | none =>
      cases MO with
      | none => exact hr
      | some b => exact hr.filter _
    | some a =>
      cases MO with
      | none => exact hr.filter _
      | some b => exact (hr.filter _).filter _
  · exact hr

theorem length_flatMap_mono {l1 l2 : List Nat} {f1 f2 : Nat → List (Nat × Row)}
    (hl : List.Sublist l1 l2) (hf : ∀ a, (f1 a).length ≤ (f2 a).length) :
    (l1.flatMap f1).length ≤ (l2.flatMap f2).length := by
  induction hl with
  | slnil => simp
  | cons a hsub ih =>
    refine le_trans ih ?_
    simp only [List.flatMap_cons, List.length_append]
    omega
  | cons₂ a hsub ih =>
    simp only [List.flatMap_cons, List.length_append]
    exact Nat.add_le_add (hf a) ih

theorem filterBySpecialization_rows_flatMap (df : DataFrame) (spec : String)
    (hstat : statColumnsOf df ≠ [])
    (htgt : targetColumnsOf (statColumnsOf df) spec ≠ []) :
    (filterBySpecialization df spec).rows
      = ((df.rows.filter fun ir =>
            keepRow (statColumnsOf df) (targetColumnsOf (statColumnsOf df) spec) ir.2).map
          Prod.fst).flatMap fun i => df.rows.filter fun ir => ir.1 == i := by
  simp only [filterBySpecialization]
  rw [if_neg (by simp [hstat]), if_neg (by simp [htgt])]
  split
  · rename_i hk
    simp [List.isEmpty_iff.mp hk]
  · rfl

theorem filterBySpecialization_length_mono (spec : String) {d1 d2 : DataFrame}
    (hc : d1.cols = d2.cols) (hr : List.Sublist d1.rows d2.rows) :
    (filterBySpecialization d1 spec).rows.length
      ≤ (filterBySpecialization d2 spec).rows.length := by
  have hsc : statColumnsOf d1 = statColumnsOf d2 := by simp [statColumnsOf, hc]
  by_cases h1 : statColumnsOf d2 = []
  · rw [filterBySpecialization_stat_nil d1 spec (by rw [hsc]; exact h1),
      filterBySpecialization_stat_nil d2 spec h1]
    exact hr.length_le
  · by_cases h2 : targetColumnsOf (statColumnsOf d2) spec = []
    · rw [filterBySpecialization_tgt_nil d1 spec (by rw [hsc]; exact h2),
        filterBySpecialization_tgt_nil d2 spec h2]
      exact hr.length_le
    · rw [filterBySpecialization_rows_flatMap d1 spec (by rw [hsc]; exact h1)
        (by rw [hsc]; exact h2),
        filterBySpecialization_rows_flatMap d2 spec h1 h2, hsc]
      exact length_flatMap_mono ((hr.filter _).map _) fun i => (hr.filter _).length_le

theorem specFilter_length_mono (sp : Option String) {d1 d2 : DataFrame}
    (hc : d1.cols = d2.cols) (hr : List.Sublist d1.rows d2.rows) :
    (specFilter sp d1).rows.length ≤ (specFilter sp d2).rows.length := by
  cases sp with
  | none => exact hr.length_le
  | some s =>
    simp only [specFilter]
    split
    · exact hr.length_le
    · exact filterBySpecialization_length_mono _ hc hr

/-- C6: with every other parameter fixed, raising `min_age`, lowering
`max_age`, raising `min_overall` or lowering `max_overall` never increases
the number of rows returned by `search`. -/
theorem C6_range_filters_monotone (df : DataFrame)
    (nq nt tm sp : Option String) (mA MA mO MO : Option Int)
    (a a' : Int) (h : a ≤ a') :
    ((searchImpl df ⟨nq, nt, tm, some a', MA, mO, MO, sp⟩).rows.length
        ≤ (searchImpl df ⟨nq, nt, tm, some a, MA, mO, MO, sp⟩).rows.length)
    ∧ ((searchImpl df ⟨nq, nt, tm, mA, some a, mO, MO, sp⟩).rows.length
        ≤ (searchImpl df ⟨nq, nt, tm, mA, some a', mO, MO, sp⟩).rows.length)
    ∧ ((searchImpl df ⟨nq, nt, tm, mA, MA, some a', MO, sp⟩).rows.length
        ≤ (searchImpl df ⟨nq, nt, tm, mA, MA, some a, MO, sp⟩).rows.length)
    ∧ ((searchImpl df ⟨nq, nt, tm, mA, MA, mO, some a, sp⟩).rows.length
        ≤ (searchImpl df ⟨nq, nt, tm, mA, MA, mO, some a', sp⟩).rows.length) := by
  simp only [searchImpl]
  refine ⟨?_, ?_, ?_, ?_⟩
  · have hage := ageFilter_narrow_min a a' h MA
      (textFilter "Team" tm (textFilter "Nationality" nt
        (textFilter "Name" nq (copyDF df))))
    have hov := overallFilter_mono mO MO hage.1 hage.2
    exact specFilter_length_mono sp hov.1 hov.2
  · have hage := ageFilter_narrow_max a' a h mA
      (textFilter "Team" tm (textFilter "Nationality" nt
        (textFilter "Name" nq (copyDF df))))
    have hov := overallFilter_mono mO MO hage.1 hage.2
    exact specFilter_length_mono sp hov.1 hov.2
  · have hov := overallFilter_narrow_min a a' h MO
      (ageFilter mA MA (textFilter "Team" tm (textFilter "Nationality" nt
        (textFilter "Name" nq (copyDF df)))))
    exact specFilter_length_mono sp hov.1 hov.2
  · have hov := overallFilter_narrow_max a' a h mO
      (ageFilter mA MA (textFilter "Team" tm (textFilter "Nationality" nt
        (textFilter "Name" nq (copyDF df)))))
    exact specFilter_length_mono sp hov.1 hov.2

/-- C6 witness: narrowing evaluated on the worked example (raising the
minimum age from 20 to 28 and the three analogous narrowings). -/
theorem C6_range_filters_monotone_witness :
    ((searchImpl exampleDF ⟨none, none, none, some 28, none, none, none, none⟩).rows.length
        ≤ (searchImpl exampleDF ⟨none, none, none, some 20, none, none, none, none⟩).rows.length)
    ∧ ((searchImpl exampleDF ⟨none, none, none, none, some 20, none, none, none⟩).rows.length
        ≤ (searchImpl exampleDF ⟨none, none, none, none, some 28, none, none, none⟩).rows.length)
    ∧ ((searchImpl exampleDF ⟨none, none, none, none, none, some 28, none, none⟩).rows.length
        ≤ (searchImpl exampleDF ⟨none, none, none, none, none, some 20, none, none⟩).rows.length)
    ∧ ((searchImpl exampleDF ⟨none, none, none, none, none, none, some 20, none⟩).rows.length
        ≤ (searchImpl exampleDF ⟨none, none, none, none, none, none, some 28, none⟩).rows.length) :=
  C6_range_filters_monotone exampleDF none none none none none none none none 20 28
    (by decide)

/-! ## Claim C8: `get_unique_values` -/

theorem lexLe_total (a : List Char) : ∀ b, lexLe a b = true ∨ lexLe b a = true := by
  induction a with
  | nil => intro b; left; rfl
  | cons x xs ih =>
    intro b
    cases b with
    | nil => right; rfl
    | cons y ys =>
      simp only [lexLe]
      rcases Nat.lt_trichotomy x.toNat y.toNat with hlt | heq | hgt
      · left
        rw [if_pos hlt]
      · have h1 : ¬ x.toNat < y.toNat := by omega
        have h2 : ¬ y.toNat < x.toNat := by omega
        simp only [if_neg h1, if_neg h2]
        exact ih ys
      · right
        rw [if_pos hgt]

theorem lexLe_trans {a b c : List Char} (h1 : lexLe a b = true) (h2 : lexLe b c = true) :
    lexLe a c = true := by
  induction a generalizing b c with
  | nil => rfl
  | cons x xs ih =>
    cases b with
    | nil => simp [lexLe] at h1
    | cons y ys =>
      cases c with
      | nil => simp [lexLe] at h2
      | cons z zs =>
        simp only [lexLe] at h1 h2 ⊢
        by_cases hxy : x.toNat < y.toNat
        · by_cases hyz : y.toNat < z.toNat
          · rw [if_pos (by omega)]
          · by_cases hzy : z.toNat < y.toNat
            · simp [hyz, hzy] at h2
            · rw [if_pos (by omega)]
        · by_cases hyx : y.toNat < x.toNat
          · simp [hxy, hyx] at h1
          · simp only [if_neg hxy, if_neg hyx] at h1
            by_cases hyz : y.toNat < z.toNat
            · rw [if_pos (by omega)]
            · by_cases hzy : z.toNat < y.toNat
              · simp [hyz, hzy] at h2
              · simp only [if_neg hyz, if_neg hzy] at h2
                rw [if_neg (by omega : ¬ x.toNat < z.toNat),
                  if_neg (by omega : ¬ z.toNat < x.toNat)]
                exact ih h1 h2

theorem strLe_total (a b : String) : strLe a b = true ∨ strLe b a = true :=
  lexLe_total a.data b.data

theorem strLe_trans {a b c : String} (h1 : strLe a b = true) (h2 : strLe b c = true) :
    strLe a c = true :=
  lexLe_trans h1 h2

theorem mem_insertStr (x s : String) (l : List String) :
    x ∈ insertStr s l ↔ x = s ∨ x ∈ l := by
  induction l with
  | nil => simp [insertStr]
  | cons t ts ih =>
    simp only [insertStr]
    split
    · simp only [List.mem_cons]
    · simp only [List.mem_cons, ih]
      tauto

theorem perm_insertStr (s : String) (l : List String) :
    List.Perm (insertStr s l) (s :: l) := by
  induction l with
  | nil => exact List.Perm.refl _
  | cons t ts ih =>
    simp only [insertStr]
    split
    · exact List.Perm.refl _
    · exact (ih.cons t).trans (List.Perm.swap s t ts)

theorem sorted_insertStr (s : String) (l : List String)
    (hs : List.Pairwise (fun a b => strLe a b = true) l) :
    List.Pairwise (fun a b => strLe a b = true) (insertStr s l) := by
  induction l with
  | nil => simp [insertStr]
  | cons t ts ih =>
    obtain ⟨ht, hts⟩ := List.pairwise_cons.mp hs
    simp only [insertStr]
    split
    · rename_i hst
      refine List.pairwise_cons.mpr ⟨?_, hs⟩
      intro b hb
      rcases List.mem_cons.mp hb with rfl | hbts
      · exact hst
      · exact strLe_trans hst (ht b hbts)
    · rename_i hst
      have hts' : strLe t s = true := by
        rcases strLe_total s t with hh | hh
        · exact absurd hh hst
        · exact hh
      refine List.pairwise_cons.mpr ⟨?_, ih hts⟩
      intro b hb
      rcases (mem_insertStr b s ts).mp hb with rfl | hbts
      · exact hts'
      · exact ht b hbts

theorem sortStrs_sorted (l : List String) :
    List.Pairwise (fun a b => strLe a b = true) (sortStrs l) := by
  induction l with
  | nil => simp [sortStrs]
  | cons a t ih => exact sorted_insertStr a (sortStrs t) ih

theorem sortStrs_perm (l : List String) : List.Perm (sortStrs l) l := by
  induction l with
  | nil => exact List.Perm.refl _
  | cons a t ih => exact (perm_insertStr a (sortStrs t)).trans (ih.cons a)

theorem mem_uniqueAux (l : List Val) : ∀ (seen : List Val) (x : Val),
    x ∈ uniqueAux seen l ↔ x ∈ l ∧ x ∉ seen := by
  induction l with
  | nil =>
    intro seen x
    simp [uniqueAux]
  | cons a t ih =>
    intro seen x
    simp only [uniqueAux]
    split
    · rename_i ha
      rw [ih seen x]
      constructor
      · rintro ⟨hx, hs⟩
        exact ⟨List.mem_cons_of_mem a hx, hs⟩
      · rintro ⟨hx, hs⟩
        rcases List.mem_cons.mp hx with rfl | hxt
        · exact absurd ha hs
        · exact ⟨hxt, hs⟩
    · rename_i ha
      constructor
      · intro hx
        rcases List.mem_cons.mp hx with rfl | hxu
        · exact ⟨List.mem_cons_self _ _, ha⟩
        · obtain ⟨hxt, hxs⟩ := (ih (a :: seen) x).mp hxu
          exact ⟨List.mem_cons_of_mem a hxt,
            fun hc => hxs (List.mem_cons_of_mem a hc)⟩
      · rintro ⟨hx, hs⟩
        by_cases hxa : x = a
        · subst hxa
          exact List.mem_cons_self _ _
        · rcases List.mem_cons.mp hx with rfl | hxt
          · exact absurd rfl hxa
          · refine List.mem_cons_of_mem a ((ih (a :: seen) x).mpr ⟨hxt, ?_⟩)
            intro hc
            rcases List.mem_cons.mp hc with rfl | hcs
            · exact hxa rfl
            · exact hs hcs

theorem mem_uniqueFirst (l : List Val) (x : Val) : x ∈ uniqueFirst l ↔ x ∈ l := by
  unfold uniqueFirst
  rw [mem_uniqueAux]
  simp

/-- C8: `get_unique_values` returns an empty list when the column does not
exist (and never fails); otherwise the result is sorted ascending in
code-point-lexicographic order and is a permutation of the distinct
missing-value-free column values each converted to a string; membership is
exactly "some non-missing cell of that column prints as this string". -/
theorem C8_get_unique_values_spec (df : DataFrame) (c : String) :
    (c ∉ df.cols → get_unique_values df c = [])
    ∧ List.Pairwise (fun a b => strLe a b = true) (get_unique_values df c)
    ∧ (c ∈ df.cols → List.Perm (get_unique_values df c)
        ((uniqueFirst ((colValues df c).filter fun v => !(isNA v))).map pyStr))
    ∧ (∀ x, x ∈ get_unique_values df c ↔
        (c ∈ df.cols ∧ ∃ v ∈ colValues df c, isNA v = false ∧ pyStr v = x)) := by
  refine ⟨?_, ?_, ?_, ?_⟩
  · intro h
    simp [get_unique_values, h]
  · simp only [get_unique_values]
    split
    · exact sortStrs_sorted _
    · simp
  · intro h
    simp only [get_unique_values, if_pos h]
    exact sortStrs_perm _
  · intro x
    simp only [get_unique_values]
    split
    · rename_i h
      rw [(sortStrs_perm _).mem_iff, List.mem_map]
      constructor
      · rintro ⟨v, hv, rfl⟩
        have hvf := List.mem_filter.mp ((mem_uniqueFirst _ v).mp hv)
        exact ⟨h, v, hvf.1, by simpa using hvf.2, rfl⟩
      · rintro ⟨hc, v, hv, hna, rfl⟩
        exact ⟨v, (mem_uniqueFirst _ v).mpr (List.mem_filter.mpr ⟨hv, by simp [hna]⟩), rfl⟩
    · rename_i h
      simp only [List.not_mem_nil, false_iff]
      rintro ⟨hc, -⟩
      exact h hc

/-- C8 witness: the characterisation evaluated on the worked example: a
missing column yields `[]`, and the `Team` column's uniques are a sorted
permutation of the stringified distinct values. -/
theorem C8_get_unique_values_spec_witness :
    get_unique_values exampleDF "Nope" = []
    ∧ List.Perm (get_unique_values exampleDF "Team")
        ((uniqueFirst ((colValues exampleDF "Team").filter fun v => !(isNA v))).map pyStr) :=
  ⟨(C8_get_unique_values_spec exampleDF "Nope").1 (by decide),
   (C8_get_unique_values_spec exampleDF "Team").2.2.1 (by decide)⟩

/-! ## Claim C9: the derived `Eval` column -/

theorem lookup_replace_self (r : Row) (c : String) (v : Val)
    (hany : r.any (fun p => p.1 == c) = true) :
    List.lookup c (r.map fun p => if p.1 == c then (c, v) else p) = some v := by
  induction r with
  | nil => simp at hany
  | cons p t ih =>
    obtain ⟨k, w⟩ := p
    by_cases hp : k = c
    · subst hp
      rw [List.map_cons, if_pos (by simp)]
      simp only [List.lookup, beq_self_eq_true]
    · have hb : (k == c) = false := beq_eq_false_iff_ne.mpr hp
      rw [List.map_cons, if_neg (by simp [hp])]
      have hany' : t.any (fun p => p.1 == c) = true := by
        simpa [List.any_cons, hb] using hany
      have hcb : (c == k) = false := beq_eq_false_iff_ne.mpr fun hh => hp hh.symm
      simp only [List.lookup, hcb]
      exact ih hany'

theorem lookup_append_self (r : Row) (c : String) (v : Val)
    (hnone : ∀ p ∈ r, p.1 ≠ c) :
    List.lookup c (r ++ [(c, v)]) = some v := by
  induction r with
  | nil => simp only [List.nil_append, List.lookup, beq_self_eq_true]
  | cons p t ih =>
    obtain ⟨k, w⟩ := p
    have hb : (c == k) = false :=
      beq_eq_false_iff_ne.mpr fun hh => (hnone (k, w) (by simp)) hh.symm
    rw [List.cons_append]
    simp only [List.lookup, hb]
    exact ih fun q hq => hnone q (by simp [hq])

theorem lookup_setCell_self (r : Row) (c : String) (v : Val) :
    List.lookup c (setCell r c v) = some v := by
  unfold setCell
  split
  · rename_i hany
    exact lookup_replace_self r c v hany
  · rename_i hany
    refine lookup_append_self r c v ?_
    intro p hp hc
    exact hany (List.any_eq_true.mpr ⟨p, hp, by simp [hc]⟩)

theorem rowVal_setCell_self (r : Row) (c : String) (v : Val) :
    rowVal (setCell r c v) c = v := by
  unfold rowVal
  rw [lookup_setCell_self]

theorem lookup_replace_ne (r : Row) (c c' : String) (v : Val) (h : c' ≠ c) :
    List.lookup c' (r.map fun p => if p.1 == c then (c, v) else p)
      = List.lookup c' r := by
  induction r with
  | nil => rfl
  | cons p t ih =>
    obtain ⟨k, w⟩ := p
    by_cases hp : k = c
    · subst hp
      rw [List.map_cons, if_pos (by simp)]
      have h1 : (c' == k) = false := beq_eq_false_iff_ne.mpr h
      simp only [List.lookup, h1]
      exact ih
    · rw [List.map_cons, if_neg (by simp [hp])]
      cases hcp : (c' == k) <;> simp only [List.lookup, hcp, ih]

theorem lookup_append_ne (r : Row) (c c' : String) (v : Val) (h : c' ≠ c) :
    List.lookup c' (r ++ [(c, v)]) = List.lookup c' r := by
  induction r with
  | nil =>
    simp only [List.nil_append, List.lookup, beq_eq_false_iff_ne.mpr h]
  | cons p t ih =>
    obtain ⟨k, w⟩ := p
    rw [List.cons_append]
    cases hcp : (c' == k) <;> simp only [List.lookup, hcp, ih]

theorem lookup_setCell_ne (r : Row) (c c' : String) (v : Val) (h : c' ≠ c) :
    List.lookup c' (setCell r c v) = List.lookup c' r := by
  unfold setCell
  split
  · exact lookup_replace_ne r c c' v h
  · exact lookup_append_ne r c c' v h

theorem rowVal_setCell_ne (r : Row) (c c' : String) (v : Val) (h : c' ≠ c) :
    rowVal (setCell r c v) c' = rowVal r c' := by
  unfold rowVal
  rw [lookup_setCell_ne r c c' v h]

theorem rowVal_coerceStatsRow (cols : List String) (hnd : cols.Nodup) (r : Row)
    (c : String) :
    rowVal (coerceStatsRow cols r) c
      = if c ∈ cols then toNumeric (rowVal r c) else rowVal r c := by
  induction cols generalizing r with
  | nil => simp [coerceStatsRow]
  | cons c0 cs ih =>
    rw [List.nodup_cons] at hnd
    obtain ⟨h0, hnd'⟩ := hnd
    have hstep : coerceStatsRow (c0 :: cs) r
        = coerceStatsRow cs (setCell r c0 (toNumeric (rowVal r c0))) := by
      simp [coerceStatsRow, List.foldl_cons]
    rw [hstep, ih hnd']
    by_cases hc : c ∈ cs
    · rw [if_pos hc, if_pos (List.mem_cons_of_mem c0 hc)]
      have hne : c ≠ c0 := fun hh => h0 (hh ▸ hc)
      rw [rowVal_setCell_ne r c0 c _ hne]
    · rw [if_neg hc]
      by_cases hc0 : c = c0
      · subst hc0
        rw [rowVal_setCell_self, if_pos (List.mem_cons_self _ _)]
      · rw [rowVal_setCell_ne r c0 c _ hc0, if_neg (by simp [hc0, hc])]

theorem existingStatCols_nodup (df : DataFrame) : (existingStatCols df).Nodup :=
  List.Nodup.filter _ (by decide)

/-- C9: when at least one short-code stat column exists, `load_transform`
keeps every row (same length, same index labels) and writes into its `Eval`
cell the mean of that row's present (numeric, non-NaN after `to_numeric`
coercion) stat values, rounded to one decimal place; NaN and unparseable
source values are excluded from the mean. -/
theorem C9_eval_column (df : DataFrame) (hex : existingStatCols df ≠ []) :
    (load_transform df).rows.length = df.rows.length
    ∧ ∀ (i : Nat) (h1 : i < (load_transform df).rows.length) (h2 : i < df.rows.length),
        ((load_transform df).rows.get ⟨i, h1⟩).1 = (df.rows.get ⟨i, h2⟩).1
        ∧ (((existingStatCols df).filterMap fun c =>
              toNumericQ (rowVal (df.rows.get ⟨i, h2⟩).2 c)) ≠ [] →
            rowVal ((load_transform df).rows.get ⟨i, h1⟩).2 "Eval"
              = Val.num (round1Q
                  ((((existingStatCols df).filterMap fun c =>
                      toNumericQ (rowVal (df.rows.get ⟨i, h2⟩).2 c)).sum)
                    / (((existingStatCols df).filterMap fun c =>
                      toNumericQ (rowVal (df.rows.get ⟨i, h2⟩).2 c)).length : ℚ)))) := by
  have hrows : (load_transform df).rows = df.rows.map fun ir =>
      (ir.1, setCell (coerceStatsRow (existingStatCols df) ir.2) "Eval"
        (evalCell (existingStatCols df) (coerceStatsRow (existingStatCols df) ir.2))) := by
    simp only [load_transform]
    rw [if_neg (by simp [hex])]
  have hlen : (load_transform df).rows.length = df.rows.length := by
    rw [hrows, List.length_map]
  refine ⟨hlen, ?_⟩
  intro i h1 h2
  have hget : (load_transform df).rows.get ⟨i, h1⟩
      = ((df.rows.get ⟨i, h2⟩).1,
          setCell (coerceStatsRow (existingStatCols df) (df.rows.get ⟨i, h2⟩).2) "Eval"
            (evalCell (existingStatCols df)
              (coerceStatsRow (existingStatCols df) (df.rows.get ⟨i, h2⟩).2))) := by
    have := List.get_of_eq hrows ⟨i, h1⟩
    rw [this, List.get_map]
  rw [hget]
  refine ⟨rfl, ?_⟩
  intro hne
  rw [rowVal_setCell_self]
  simp only [evalCell]
  have hnums : ((existingStatCols df).filterMap fun c =>
      match rowVal (coerceStatsRow (existingStatCols df) (df.rows.get ⟨i, h2⟩).2) c with
      | Val.num q => some q
      | _ => none)
      = (existingStatCols df).filterMap fun c =>
          toNumericQ (rowVal (df.rows.get ⟨i, h2⟩).2 c) := by
    refine List.filterMap_congr fun c hc => ?_
    rw [rowVal_coerceStatsRow _ (existingStatCols_nodup df) _ c, if_pos hc]
    rfl
  rw [hnums, if_neg (by rw [List.isEmpty_iff]; exact hne)]

/-- C9 witness: on the worked example (`MO`, `SP` present), both rows get an
`Eval` cell equal to the rounded mean of their coerced stats. -/
theorem C9_eval_column_witness :
    (load_transform exampleDF).rows.length = exampleDF.rows.length
    ∧ rowVal ((load_transform exampleDF).rows.get ⟨0, by decide⟩).2 "Eval"
        = Val.num (round1Q
            ((((existingStatCols exampleDF).filterMap fun c =>
                toNumericQ (rowVal (exampleDF.rows.get ⟨0, by decide⟩).2 c)).sum)
              / (((existingStatCols exampleDF).filterMap fun c =>
                toNumericQ (rowVal (exampleDF.rows.get ⟨0, by decide⟩).2 c)).length : ℚ))) := by
  have h := C9_eval_column exampleDF (by decide)
  refine ⟨h.1, ?_⟩
  exact (h.2 0 (by rw [h.1]; decide) (by decide)).2 (by decide)

end CyclingDB
